import Mathlib

/-!
Verification development for the vault-apy-oracle reconciliation and
resolution engine.  The definitions below are a shallow embedding of the
JavaScript source: JS numbers are modelled as rationals, JS `Map` as an
association list with in-place replacement, JS string operations as
character-list operations, and the asynchronous cache-deduplication
routine as an explicit interleaving state machine.
-/

namespace VaultOracle

/-! ### JS string and number primitives -/

/-- JS `String.prototype.toLowerCase` (ASCII): lowercase every character. -/
def jsLower (s : String) : String := ⟨s.data.map Char.toLower⟩

/-- JS `String.prototype.toUpperCase` (ASCII): uppercase every character. -/
def jsUpper (s : String) : String := ⟨s.data.map Char.toUpper⟩

/-- `leadMatch needle hay`: `hay` starts with `needle` (JS `startsWith`). -/
def leadMatch : List Char → List Char → Bool
  | [], _ => true
  | _ :: _, [] => false
  | a :: as, b :: bs => a == b && leadMatch as bs

/-- JS `String.prototype.includes`: `needle` occurs contiguously in `hay`. -/
def hasSub : List Char → List Char → Bool
  | [], needle => leadMatch needle []
  | c :: rest, needle => leadMatch needle (c :: rest) || hasSub rest needle

/-- JS `hay.includes(needle)` on strings. -/
def strIncludes (hay needle : String) : Bool := hasSub hay.data needle.data

/-- JS `Math.round`: round half toward positive infinity. -/
def jsRound (q : ℚ) : ℤ := ⌊q + 1/2⌋

/-- `isEthereumAddress` (external-adapter.js / enhanced-vault-collector.js):
a real contract address starts with `0x` and is exactly 42 characters long;
anything else is an opaque provider identifier (a DeFi Llama UUID). -/
def isEthereumAddress (s : String) : Bool :=
  leadMatch ['0', 'x'] s.data && s.data.length == 42

/-! ### Data model -/

/-- Canonical vault record as produced by the source collectors
(`vault_address`, `chain`, `protocol`, `name`, `asset_symbol`, `apy`,
`tvl_usd`, `data_source`, optional `risk_score` and `validation_score`). -/
structure VaultRecord where
  vault_address : String
  chain : String
  protocol : String
  name : String
  asset_symbol : String
  apy : ℚ
  tvl_usd : ℚ
  data_source : String
  risk_score : Option ℚ
  validation_score : Option ℚ
deriving DecidableEq, Repr

/-- Per-factor risk sub-scores, each `Math.round`ed (risk-scorer.js). -/
structure RiskBreakdown where
  protocol : ℤ
  tvl : ℤ
  apy : ℤ
  chain : ℤ
  source : ℤ
deriving DecidableEq, Repr

/-- Result of `calculateRiskScore` (risk-scorer.js). -/
structure RiskAssessment where
  riskScore : ℤ
  breakdown : RiskBreakdown
  riskCategory : String
deriving DecidableEq, Repr

/-- A vault record enriched by `filterByRiskTolerance` with the computed
risk score, category and breakdown (the JS spread overwrites the raw
collector-provided `risk_score` with the computed one). -/
structure EnrichedVault where
  record : VaultRecord
  risk_score : ℤ
  risk_category : String
  risk_breakdown : RiskBreakdown
deriving DecidableEq, Repr

/-- An enriched vault further annotated with `risk_adjusted_apy` by the
`map` step preceding the best-vault sort. -/
structure RankedVault where
  enriched : EnrichedVault
  risk_adjusted_apy : ℚ
deriving DecidableEq, Repr

/-! ### Reconciler: `collectFromAllSources` (external-adapter.js 138-171) -/

/-- Identity key of a record: `` `${vault_address}-${chain}`.toLowerCase() ``. -/
def identityKey (v : VaultRecord) : String :=
  jsLower (v.vault_address ++ "-" ++ v.chain)

/-- JS truthiness of the optional `risk_score` field: absent or `0` is falsy. -/
def riskTruthy : Option ℚ → Bool
  | none => false
  | some x => x != 0

/-- The JS `Map` keyed by identity: an association list where `set` replaces
an existing binding in place and otherwise appends. -/
abbrev VaultMap := List (String × VaultRecord)

/-- JS `Map.prototype.set`. -/
def vaultMapSet : VaultMap → String → VaultRecord → VaultMap
  | [], k, v => [(k, v)]
  | (k2, v2) :: rest, k, v =>
      if k2 = k then (k, v) :: rest else (k2, v2) :: vaultMapSet rest k v

/-- JS `Map.prototype.get`. -/
def vaultMapGet : VaultMap → String → Option VaultRecord
  | [], _ => none
  | (k2, v2) :: rest, k => if k2 = k then some v2 else vaultMapGet rest k

/-- Override test for a second-stream record against the stored one:
`vault.tvl_usd > existing.tvl_usd || (vault.risk_score && !existing.risk_score)`. -/
def shouldOverride (incoming existing : VaultRecord) : Bool :=
  decide (incoming.tvl_usd > existing.tvl_usd) ||
    (riskTruthy incoming.risk_score && !riskTruthy existing.risk_score)

/-- First phase of the merge: every DefiLlama record is `set`
unconditionally (last record wins within the first stream). -/
def mergePhase1 (m : VaultMap) (records : List VaultRecord) : VaultMap :=
  records.foldl (fun acc v => vaultMapSet acc (identityKey v) v) m

/-- One step of the second phase: a Vaults.fyi record is inserted when its
identity is absent and replaces the stored record exactly when
`shouldOverride` holds. -/
def mergeStep2 (m : VaultMap) (v : VaultRecord) : VaultMap :=
  match vaultMapGet m (identityKey v) with
  | none => vaultMapSet m (identityKey v) v
  | some existing =>
      if shouldOverride v existing then vaultMapSet m (identityKey v) v else m

/-- Second phase of the merge over the Vaults.fyi stream. -/
def mergePhase2 (m : VaultMap) (records : List VaultRecord) : VaultMap :=
  records.foldl mergeStep2 m

/-- `collectFromAllSources` deduplication core (external-adapter.js 145-167):
DefiLlama records are inserted first, then Vaults.fyi records override per
`shouldOverride`.  The `source_priority` provenance tag attached by the JS
spread is not modelled; records are stored unchanged. -/
def collectFromAllSources (defiLlamaVaults vaultsFyiVaults : List VaultRecord) : VaultMap :=
  mergePhase2 (mergePhase1 [] defiLlamaVaults) vaultsFyiVaults

/-- `Array.from(vaultMap.values())`: the merged record set. -/
def mergedVaults (defiLlamaVaults vaultsFyiVaults : List VaultRecord) : List VaultRecord :=
  (collectFromAllSources defiLlamaVaults vaultsFyiVaults).map Prod.snd

/-- First record of a stream with the given identity key. -/
def findByKey (records : List VaultRecord) (k : String) : Option VaultRecord :=
  records.find? (fun v => identityKey v == k)

/-! ### Risk scorer (risk-scorer.js) -/

/-- `protocolRiskScores` table. -/
def protocolRiskScores : List (String × ℚ) :=
  [("aave-v3", 95), ("aave-v2", 92), ("compound-v3", 94), ("compound-v2", 90),
   ("yearn", 85), ("convex", 83), ("curve", 87), ("lido", 88), ("maker", 89),
   ("uniswap-v3", 75), ("sushiswap", 72), ("balancer", 78), ("morpho-blue", 82),
   ("fluid-lending", 75), ("aerodrome-slipstream", 45), ("pancakeswap", 65),
   ("trader-joe", 68)]

/-- `chainRiskMultipliers` table. -/
def chainRiskMultipliers : List (String × ℚ) :=
  [("ethereum", 1), ("base", 95/100), ("arbitrum", 9/10), ("polygon", 85/100),
   ("optimism", 9/10), ("avalanche", 8/10), ("bsc", 7/10)]

/-- `protocol.toLowerCase().replace(/\s+/g, '-')`: lowercase, then collapse
every whitespace run into a single dash.  The boolean argument records
whether the previous character was part of a whitespace run. -/
def collapseWsAux : Bool → List Char → List Char
  | _, [] => []
  | prevWs, c :: rest =>
      if c.isWhitespace then
        if prevWs then collapseWsAux true rest
        else '-' :: collapseWsAux true rest
      else c :: collapseWsAux false rest

/-- Protocol key normalization used by `getProtocolScore`. -/
def normalizeProtocolKey (protocol : String) : String :=
  ⟨collapseWsAux false (protocol.data.map Char.toLower)⟩

/-- `getProtocolScore`: 30 for a falsy protocol, table lookup with default 50
(the JS `|| 50` default; every table value is nonzero so `||` only fires on
a missing key). -/
def getProtocolScore (protocol : String) : ℚ :=
  if protocol = "" then 30
  else (protocolRiskScores.lookup (normalizeProtocolKey protocol)).getD 50

/-- `getTVLScore`: step function over TVL bands (falsy/nonpositive TVL → 20). -/
def getTVLScore (tvlUsd : ℚ) : ℚ :=
  if tvlUsd ≤ 0 then 20
  else if tvlUsd ≥ 100000000 then 95
  else if tvlUsd ≥ 50000000 then 90
  else if tvlUsd ≥ 10000000 then 85
  else if tvlUsd ≥ 5000000 then 75
  else if tvlUsd ≥ 1000000 then 65
  else if tvlUsd ≥ 500000 then 55
  else if tvlUsd ≥ 100000 then 45
  else 30

/-- `getAPYScore`: step function penalizing implausibly high reported APY. -/
def getAPYScore (apy : ℚ) : ℚ :=
  if apy ≤ 0 then 20
  else if apy ≤ 5 then 95
  else if apy ≤ 10 then 90
  else if apy ≤ 20 then 80
  else if apy ≤ 50 then 60
  else if apy ≤ 100 then 40
  else if apy ≤ 200 then 25
  else 10

/-- `getChainScore`: 50 for a falsy chain, else multiplier (default 0.7) × 100. -/
def getChainScore (chain : String) : ℚ :=
  if chain = "" then 50
  else ((chainRiskMultipliers.lookup (jsLower chain)).getD (7/10)) * 100

/-- `getSourceScore`: reliability table with default 70 (JS `|| default`). -/
def getSourceScore (source : String) : ℚ :=
  ([("vaultsfyi", (90 : ℚ)), ("defillama", 85), ("onchain", 95)].lookup source).getD 70

/-- `getRiskCategory` thresholds (risk-scorer.js 170-176). -/
def getRiskCategory (score : ℤ) : String :=
  if score ≥ 85 then "low"
  else if score ≥ 70 then "medium-low"
  else if score ≥ 55 then "medium"
  else if score ≥ 40 then "medium-high"
  else "high"

/-- `calculateRiskScore` (risk-scorer.js 51-116), cache layer elided: the
memo read either returns exactly this value or recomputes it.  The category
is computed from the unclamped rounded score, the stored score from the
clamped one, exactly as in the source. -/
def calculateRiskScore (vaultData : VaultRecord) : RiskAssessment :=
  let protocolScore := getProtocolScore vaultData.protocol
  let tvlScore := getTVLScore vaultData.tvl_usd
  let apyScore := getAPYScore vaultData.apy
  let chainScore := getChainScore vaultData.chain
  let sourceScore := getSourceScore vaultData.data_source
  let score := protocolScore * (4/10) + tvlScore * (25/100) + apyScore * (2/10)
      + chainScore * (1/10) + sourceScore * (5/100)
  let maxScore := (100 : ℚ) * (4/10) + 100 * (25/100) + 100 * (2/10)
      + 100 * (1/10) + 100 * (5/100)
  let finalScore := jsRound (score / maxScore * 100)
  { riskScore := max 0 (min 100 finalScore)
    breakdown :=
      { protocol := jsRound protocolScore, tvl := jsRound tvlScore
        apy := jsRound apyScore, chain := jsRound chainScore
        source := jsRound sourceScore }
    riskCategory := getRiskCategory finalScore }

/-- `riskLevelScores` table of `filterByRiskTolerance`. -/
def riskLevelScores : List (String × ℤ) :=
  [("low", 85), ("medium-low", 70), ("medium", 55), ("medium-high", 40), ("high", 0)]

/-- Minimum acceptable risk score for a tolerance:
`riskLevelScores[maxRiskLevel] || 55`.  JS `||` treats the looked-up value
`0` (the `high` entry) as falsy, so `high` — like an unknown level — falls
back to 55. -/
def minScoreFor (maxRiskLevel : String) : ℤ :=
  match riskLevelScores.lookup maxRiskLevel with
  | some s => if s = 0 then 55 else s
  | none => 55

/-- The enrichment applied to each vault inside `filterByRiskTolerance`. -/
def enrichWithRisk (v : VaultRecord) : EnrichedVault :=
  let riskAnalysis := calculateRiskScore v
  { record := v, risk_score := riskAnalysis.riskScore
    risk_category := riskAnalysis.riskCategory
    risk_breakdown := riskAnalysis.breakdown }

/-- `filterByRiskTolerance` (risk-scorer.js 179-206): enrich every vault,
keep those with `risk_score >= minScore`, sort safest first. -/
def filterByRiskTolerance (vaults : List VaultRecord) (maxRiskLevel : String) :
    List EnrichedVault :=
  let minScore := minScoreFor maxRiskLevel
  let enrichedVaults := vaults.map enrichWithRisk
  (enrichedVaults.filter (fun v => decide (v.risk_score ≥ minScore))).mergeSort
    (fun a b => decide (b.risk_score ≤ a.risk_score))

/-- `getRiskAdjustedAPY(apy, riskScore) = apy * (riskScore / 100)`. -/
def getRiskAdjustedAPY (apy riskScore : ℚ) : ℚ := apy * (riskScore / 100)

/-! ### Resolver: `getBestVault` (external-adapter.js 435-500) -/

/-- Asset filter: `vault.asset_symbol.toUpperCase() === asset.toUpperCase()`. -/
def assetMatches (v : VaultRecord) (asset : String) : Bool :=
  jsUpper v.asset_symbol == jsUpper asset

/-- Optional chain filter: `vault.chain.toLowerCase() === chain.toLowerCase()`. -/
def chainFilter (vaults : List VaultRecord) : Option String → List VaultRecord
  | none => vaults
  | some c => vaults.filter (fun v => jsLower v.chain == jsLower c)

/-- The `map` step before the best-vault sort: annotate with
`risk_adjusted_apy = getRiskAdjustedAPY(vault.apy, vault.risk_score)`. -/
def addRiskAdjusted (e : EnrichedVault) : RankedVault :=
  { enriched := e
    risk_adjusted_apy := getRiskAdjustedAPY e.record.apy (e.risk_score : ℚ) }

/-- Confidence used by the comparator: `vault.validation_score || 0`. -/
def confidenceOf (r : RankedVault) : ℚ :=
  (r.enriched.record.validation_score).getD 0

/-- The two-tier sort comparator of `getBestVault` (external-adapter.js
468-477), returning a JS-style number: negative places `a` ahead of `b`. -/
def bestVaultCompare (a b : RankedVault) : ℚ :=
  let confidenceA := confidenceOf a
  let confidenceB := confidenceOf b
  if |confidenceA - confidenceB| > 20 then confidenceB - confidenceA
  else b.risk_adjusted_apy - a.risk_adjusted_apy

/-- Boolean ordering induced by the comparator, used to run the sort. -/
def bestVaultLe (a b : RankedVault) : Bool := decide (bestVaultCompare a b ≤ 0)

/-- The candidates of `getBestVault` surviving the asset/chain filters and
the risk-tolerance filter. -/
def adapterSafeVaults (vaults : List VaultRecord) (asset riskLevel : String)
    (chain : Option String) : List EnrichedVault :=
  filterByRiskTolerance (chainFilter (vaults.filter (fun v => assetMatches v asset)) chain)
    riskLevel

/-- The full ranking produced by `getBestVault`: the two-tier comparator
applied by the sort to the whole surviving candidate list. -/
def getBestVaultRanking (vaults : List VaultRecord) (asset riskLevel : String)
    (chain : Option String) : List RankedVault :=
  ((adapterSafeVaults vaults asset riskLevel chain).map addRiskAdjusted).mergeSort
    bestVaultLe

/-- Success payload of `getBestVault`. -/
structure BestVaultResult where
  vault_address : String
  apy : ℚ
  risk_adjusted_apy : ℚ
  risk_score : ℤ
  risk_category : String
  tvl_usd : ℚ
  protocol : String
  chain : String
  name : String
  value : ℚ
deriving DecidableEq, Repr

/-- The response object built from the winning vault. -/
def mkBestVaultResult (b : RankedVault) : BestVaultResult :=
  { vault_address := b.enriched.record.vault_address
    apy := b.enriched.record.apy
    risk_adjusted_apy := b.risk_adjusted_apy
    risk_score := b.enriched.risk_score
    risk_category := b.enriched.risk_category
    tvl_usd := b.enriched.record.tvl_usd
    protocol := b.enriched.record.protocol
    chain := b.enriched.record.chain
    name := b.enriched.record.name
    value := b.enriched.record.apy * 100 }

/-- The error message thrown when the filter leaves no candidate. -/
def noVaultsMsg (asset riskLevel : String) : String :=
  "No vaults found for " ++ asset ++ " with " ++ riskLevel ++ " risk level"

/-- `getBestVault` with the collector output passed in: empty survivor set
raises the no-matching-vault error, otherwise the head of the ranking wins
(the database save is elided). -/
def adapterGetBestVault (vaults : List VaultRecord) (asset riskLevel : String)
    (chain : Option String) : Except String BestVaultResult :=
  let safeVaults := adapterSafeVaults vaults asset riskLevel chain
  if safeVaults.isEmpty then Except.error (noVaultsMsg asset riskLevel)
  else
    match (safeVaults.map addRiskAdjusted).mergeSort bestVaultLe with
    | [] => Except.error (noVaultsMsg asset riskLevel)
    | best :: _ => Except.ok (mkBestVaultResult best)

/-- Response of the Chainlink POST endpoint: the route handler catches any
thrown error and answers with a structured `errored` JSON body. -/
inductive ChainlinkResponse where
  | success (result : BestVaultResult)
  | errored (error : String)
deriving DecidableEq, Repr

/-- The POST `/` route around `getBestVault`: thrown errors become a
structured error response, never an unhandled crash. -/
def adapterBestVaultEndpoint (vaults : List VaultRecord) (asset riskLevel : String)
    (chain : Option String) : ChainlinkResponse :=
  match adapterGetBestVault vaults asset riskLevel chain with
  | Except.ok r => ChainlinkResponse.success r
  | Except.error msg => ChainlinkResponse.errored msg

/-! ### API server routes (server.js) -/

/-- Response of GET `/api/v1/vaults/best/:asset`. -/
inductive ServerResponse where
  | ok (best : RankedVault) (totalAnalyzed passedFilter : ℕ)
  | notFound (error : String)
deriving DecidableEq, Repr

/-- Survivors of the best-vault route's asset / TVL / chain / risk filters. -/
def serverSafeVaults (vaults : List VaultRecord) (asset risk : String)
    (chain : Option String) (minTvl : ℚ) : List EnrichedVault :=
  let filtered := vaults.filter
    (fun v => assetMatches v asset && decide (v.tvl_usd ≥ minTvl))
  filterByRiskTolerance (chainFilter filtered chain) risk

/-- GET `/api/v1/vaults/best/:asset` (server.js 195-253): an empty survivor
set yields the structured 404 body; otherwise the vault with the highest
risk-adjusted APY is returned. -/
def bestVaultRoute (vaults : List VaultRecord) (asset risk : String)
    (chain : Option String) (minTvl : ℚ) : ServerResponse :=
  let safeVaults := serverSafeVaults vaults asset risk chain minTvl
  if safeVaults.isEmpty then ServerResponse.notFound ("No vaults found matching criteria")
  else
    match (safeVaults.map addRiskAdjusted).mergeSort
        (fun a b => decide (b.risk_adjusted_apy ≤ a.risk_adjusted_apy)) with
    | [] => ServerResponse.notFound ("No vaults found matching criteria")
    | best :: _ =>
        ServerResponse.ok best
          ((chainFilter (vaults.filter (fun v => assetMatches v asset && decide (v.tvl_usd ≥ minTvl))) chain).length)
          safeVaults.length

/-- `sortFunctions[sort_by] || sortFunctions['risk_adjusted_apy']` of the
top-vaults route. -/
def sortFnLe (sortBy : String) : RankedVault → RankedVault → Bool :=
  if sortBy = "apy" then fun a b => decide (b.enriched.record.apy ≤ a.enriched.record.apy)
  else if sortBy = "tvl" then fun a b => decide (b.enriched.record.tvl_usd ≤ a.enriched.record.tvl_usd)
  else if sortBy = "risk_score" then fun a b => decide (b.enriched.risk_score ≤ a.enriched.risk_score)
  else fun a b => decide (b.risk_adjusted_apy ≤ a.risk_adjusted_apy)

/-- Response of GET `/api/v1/vaults/top/:asset`.  The `invalidCriteria`
constructor exists to state the rejection the specification predicts; the
route never produces it. -/
inductive TopVaultsResponse where
  | success (results : List RankedVault)
  | invalidCriteria (error : String)
deriving DecidableEq, Repr

/-- Trace of one top-vaults request: whether the collector I/O ran, and the
response. -/
structure TopVaultsTrace where
  collected : Bool
  response : TopVaultsResponse
deriving DecidableEq, Repr

/-- GET `/api/v1/vaults/top/:asset` (server.js 256-328): the collector runs
unconditionally before the limit is ever consulted, and the effective result
count is `Math.min(parseInt(limit), 100)` applied by `slice` after sorting.
No result-limit validation exists on this path. -/
def topVaultsRoute (collectorVaults : List VaultRecord) (asset risk : String)
    (chain : Option String) (limit : ℕ) (sortBy : String) : TopVaultsTrace :=
  let vaults := collectorVaults
  let filtered := vaults.filter (fun v => assetMatches v asset)
  let safeVaults := filterByRiskTolerance (chainFilter filtered chain) risk
  let enriched := safeVaults.map addRiskAdjusted
  let sorted := enriched.mergeSort (sortFnLe sortBy)
  { collected := true
    response := TopVaultsResponse.success (sorted.take (min limit 100)) }

/-! ### Yield Calculator: opaque-identifier path
(enhanced-vault-collector.js 28-128) -/

/-- The protocol-category estimation returned for UUID-identified vaults.
`Math.random()` is modelled by the parameter `rand` (in `[0,1)`). -/
structure EstimationResult where
  vault_address : String
  chain : String
  protocol : String
  calculated_apy : ℚ
  apy_calculation_method : String
  confidence_score : ℚ
  is_estimation : Bool
deriving DecidableEq, Repr

/-- `getProtocolEstimationForUUID`: a fixed typical APY band per protocol
family, explicitly tagged `is_estimation`. -/
def getProtocolEstimationForUUID (uuid chain protocol : String) (rand : ℚ) :
    EstimationResult :=
  let protocolLower := jsLower protocol
  if strIncludes protocolLower ("aave") then
    { vault_address := uuid, chain := chain, protocol := protocol
      calculated_apy := 2/100 + rand * (3/100)
      apy_calculation_method := "aave_typical_range"
      confidence_score := 6/10, is_estimation := true }
  else if strIncludes protocolLower ("compound") then
    { vault_address := uuid, chain := chain, protocol := protocol
      calculated_apy := 15/1000 + rand * (25/1000)
      apy_calculation_method := "compound_typical_range"
      confidence_score := 6/10, is_estimation := true }
  else if strIncludes protocolLower ("morpho") then
    { vault_address := uuid, chain := chain, protocol := protocol
      calculated_apy := 25/1000 + rand * (4/100)
      apy_calculation_method := "morpho_typical_range"
      confidence_score := 5/10, is_estimation := true }
  else if strIncludes protocolLower ("yearn") then
    { vault_address := uuid, chain := chain, protocol := protocol
      calculated_apy := 3/100 + rand * (5/100)
      apy_calculation_method := "yearn_typical_range"
      confidence_score := 4/10, is_estimation := true }
  else
    { vault_address := uuid, chain := chain, protocol := protocol
      calculated_apy := 4/100
      apy_calculation_method := "protocol_estimation"
      confidence_score := 3/10, is_estimation := true }

/-- Basic on-chain vault data as returned by `getVaultOnChainData`. -/
structure OnChainVaultData where
  name : String
  symbol : String
  total_assets : ℚ
  share_price : ℚ
  block_number : ℕ
deriving DecidableEq, Repr

/-- Result of `apyCalculators.calculateProtocolAPY`. -/
structure ApyCalcResult where
  calculated_apy : ℚ
  method : String
  confidence_score : ℚ
deriving DecidableEq, Repr

/-- The RPC capability consumed by the real-contract-address path: what the
on-chain reads would return (`none` models a failed read). -/
structure RpcEnv where
  basicData : Option OnChainVaultData
  apyData : Option ApyCalcResult
deriving DecidableEq, Repr

/-- Output of `getVaultDataWithCalculatedAPY`: either the UUID estimation or
measured on-chain data with an optional protocol APY calculation. -/
inductive EnhancedOut where
  | estimate (e : EstimationResult)
  | measured (d : OnChainVaultData) (apyData : Option ApyCalcResult)
deriving DecidableEq, Repr

/-- `getVaultDataWithCalculatedAPY` (enhanced-vault-collector.js 28-73)
together with a count of uses of the RPC capability: a non-address
identifier short-circuits to the protocol estimation before any RPC read;
a real address consults the capability for basic data and, when that
succeeds, again for the protocol APY. -/
def getVaultDataWithCalculatedAPY (vaultAddress chain protocol : String)
    (rand : ℚ) (rpc : RpcEnv) : Option EnhancedOut × ℕ :=
  if !isEthereumAddress vaultAddress then
    (some (EnhancedOut.estimate
      (getProtocolEstimationForUUID vaultAddress chain protocol rand)), 0)
  else
    match rpc.basicData with
    | none => (none, 1)
    | some basic => (some (EnhancedOut.measured basic rpc.apyData), 2)

/-! ### On-chain validation score (external-adapter.js 265-392) -/

/-- The five checks of `validateVaultData`. -/
structure Validation where
  has_real_address : Bool
  asset_match : Bool
  name_similarity : Bool
  tvl_reasonable : Bool
  data_freshness : String
deriving DecidableEq, Repr

/-- `calculateValidationScore` (external-adapter.js 368-381). -/
def calculateValidationScore (validation : Validation) : ℕ :=
  let score := 0
  let score := if validation.has_real_address then score + 30 else score
  let score := if validation.asset_match then score + 25 else score
  let score := if validation.name_similarity then score + 20 else score
  let score := if validation.tvl_reasonable then score + 15 else score
  let score :=
    if validation.data_freshness = "fresh" then score + 10
    else if validation.data_freshness = "recent" then score + 5
    else score
  min score 100

/-! ### Cache deduplication (cache-manager.js 330-361) as a state machine

`getOrSetWithDeduplication` has one suspension point between its in-flight
check and the registration of its promise: the awaited `getVaultData` read.
Each caller therefore executes two macro-steps.  Step one (synchronous
head): if the in-flight table holds the key, return that promise (`joined`);
otherwise begin the awaited cache read (`cacheRead`).  Step two (resumption):
on a cache hit return the value (`served`); on a miss invoke the upstream
function, register the promise in the in-flight table and return it
(`launched`) — this block is synchronous, hence atomic.  Settlement of the
upstream promise runs the `then`/`catch` handler: populate the cache on
success and delete the in-flight entry in either case. -/

inductive DedupPhase where
  | start
  | cacheRead
  | joined
  | served
  | launched
deriving DecidableEq, Repr

/-- Shared cache state plus the phase of every concurrent caller. -/
structure DedupState where
  cachePopulated : Bool
  inFlightRegistered : Bool
  upstreamCalls : ℕ
  threads : List DedupPhase
deriving DecidableEq, Repr

/-- Scheduler actions: advance caller `tid` by one macro-step, or settle the
upstream promise (successfully or not). -/
inductive DedupAction where
  | run (tid : ℕ)
  | settle (success : Bool)
deriving DecidableEq, Repr

/-- One interleaving step of `getOrSetWithDeduplication`. -/
def dedupStep (s : DedupState) : DedupAction → DedupState
  | DedupAction.run tid =>
      match s.threads.get? tid with
      | some DedupPhase.start =>
          if s.inFlightRegistered then
            { s with threads := s.threads.set tid DedupPhase.joined }
          else
            { s with threads := s.threads.set tid DedupPhase.cacheRead }
      | some DedupPhase.cacheRead =>
          if s.cachePopulated then
            { s with threads := s.threads.set tid DedupPhase.served }
          else
            { s with threads := s.threads.set tid DedupPhase.launched
                     upstreamCalls := s.upstreamCalls + 1
                     inFlightRegistered := true }
      | _ => s
  | DedupAction.settle success =>
      if success then
        { s with cachePopulated := true, inFlightRegistered := false }
      else
        { s with inFlightRegistered := false }

/-- Run a schedule of actions from a state. -/
def dedupRun (s : DedupState) (actions : List DedupAction) : DedupState :=
  actions.foldl dedupStep s

/-- `n` concurrent callers of the same key against a cold cache. -/
def coldStart (n : ℕ) : DedupState :=
  { cachePopulated := false, inFlightRegistered := false, upstreamCalls := 0
    threads := List.replicate n DedupPhase.start }

/-! ### Concrete records used by counterexamples and witnesses -/

/-- Well-formedness of the merge map: keys are distinct and every entry is
stored under the identity key of its record. -/
def WFMap (m : VaultMap) : Prop :=
  (m.map Prod.fst).Nodup ∧ ∀ e ∈ m, e.1 = identityKey e.2

/-- A record with the lower TVL but a present risk score. -/
def mergeRecA : VaultRecord :=
  { vault_address := "A", chain := "eth", protocol := "p", name := "n1",
    asset_symbol := "USDC", apy := 1, tvl_usd := 1, data_source := "defillama",
    risk_score := some 80, validation_score := none }

/-- Same identity as `mergeRecA`: higher TVL but no risk score. -/
def mergeRecB : VaultRecord :=
  { vault_address := "A", chain := "eth", protocol := "p", name := "n2",
    asset_symbol := "USDC", apy := 2, tvl_usd := 2, data_source := "vaultsfyi",
    risk_score := none, validation_score := none }

/-- A record whose identity is disjoint from `mergeRecA`'s. -/
def mergeRecC : VaultRecord :=
  { vault_address := "B", chain := "base", protocol := "q", name := "n3",
    asset_symbol := "USDC", apy := 3, tvl_usd := 9, data_source := "vaultsfyi",
    risk_score := none, validation_score := none }

/-- A record whose address and chain differ from `caseRecB`'s only in casing. -/
def caseRecA : VaultRecord :=
  { vault_address := "0xAbC", chain := "Ethereum", protocol := "p", name := "n4",
    asset_symbol := "USDC", apy := 1, tvl_usd := 5, data_source := "defillama",
    risk_score := none, validation_score := none }

/-- Casing variant of `caseRecA`. -/
def caseRecB : VaultRecord :=
  { vault_address := "0xaBc", chain := "ETHEREUM", protocol := "p", name := "n5",
    asset_symbol := "USDC", apy := 2, tvl_usd := 6, data_source := "vaultsfyi",
    risk_score := none, validation_score := none }

/-- High-confidence, lower-yield candidate (validation score 90). -/
def confRecHi : RankedVault :=
  { enriched :=
      { record :=
          { vault_address := "0xH", chain := "ethereum", protocol := "aave-v3",
            name := "hi", asset_symbol := "USDC", apy := 1, tvl_usd := 9,
            data_source := "defillama", risk_score := none,
            validation_score := some 90 }
        risk_score := 90, risk_category := "low"
        risk_breakdown := { protocol := 0, tvl := 0, apy := 0, chain := 0, source := 0 } }
    risk_adjusted_apy := 1 }

/-- Low-confidence, higher-yield candidate (validation score 65). -/
def confRecLo : RankedVault :=
  { enriched :=
      { record :=
          { vault_address := "0xL", chain := "ethereum", protocol := "yearn",
            name := "lo", asset_symbol := "USDC", apy := 2, tvl_usd := 9,
            data_source := "defillama", risk_score := none,
            validation_score := some 65 }
        risk_score := 90, risk_category := "low"
        risk_breakdown := { protocol := 0, tvl := 0, apy := 0, chain := 0, source := 0 } }
    risk_adjusted_apy := 2 }

/-- A vault whose computed risk score (38) is below 55: excluded at
tolerance `high` although its score is nonnegative. -/
def riskCexVault : VaultRecord :=
  { vault_address := "pool-1", chain := "", protocol := "unknown", name := "X",
    asset_symbol := "USDC", apy := 0, tvl_usd := 0, data_source := "",
    risk_score := none, validation_score := none }

/-! ## Helper lemmas -/

theorem jsLower_append (a b : String) : jsLower (a ++ b) = jsLower a ++ jsLower b := by
  cases a with
  | mk la =>
    cases b with
    | mk lb =>
      show String.mk ((la ++ lb).map Char.toLower)
        = String.mk (la.map Char.toLower) ++ String.mk (lb.map Char.toLower)
      rw [show (String.mk (la.map Char.toLower) ++ String.mk (lb.map Char.toLower))
        = String.mk (la.map Char.toLower ++ lb.map Char.toLower) from rfl]
      rw [List.map_append]

theorem vaultMapGet_set_self (m : VaultMap) (k : String) (v : VaultRecord) :
    vaultMapGet (vaultMapSet m k v) k = some v := by
  induction m with
  | nil => simp [vaultMapSet, vaultMapGet]
  | cons e rest ih =>
    obtain ⟨k2, v2⟩ := e
    by_cases h : k2 = k <;> simp [vaultMapSet, vaultMapGet, h, ih]

theorem vaultMapGet_set_ne (m : VaultMap) (k k2 : String) (v : VaultRecord)
    (h : k2 ≠ k) : vaultMapGet (vaultMapSet m k v) k2 = vaultMapGet m k2 := by
  induction m with
  | nil =>
    simp only [vaultMapSet, vaultMapGet]
    rw [if_neg (fun h2 => h h2.symm)]
  | cons e rest ih =>
    obtain ⟨k3, v3⟩ := e
    by_cases h3 : k3 = k
    · subst h3
      simp only [vaultMapSet, if_pos rfl, vaultMapGet]
      rw [if_neg (fun h2 => h h2.symm), if_neg (fun h2 => h h2.symm)]
    · simp only [vaultMapSet, if_neg h3, vaultMapGet]
      by_cases h4 : k3 = k2
      · rw [if_pos h4, if_pos h4]
      · rw [if_neg h4, if_neg h4, ih]

theorem keys_set (m : VaultMap) (k : String) (v : VaultRecord) :
    (vaultMapSet m k v).map Prod.fst =
      if k ∈ m.map Prod.fst then m.map Prod.fst else m.map Prod.fst ++ [k] := by
  induction m with
  | nil => simp [vaultMapSet]
  | cons e rest ih =>
    obtain ⟨k3, v3⟩ := e
    by_cases h3 : k3 = k
    · subst h3
      simp [vaultMapSet]
    · simp only [vaultMapSet, if_neg h3, List.map_cons, ih, List.mem_cons]
      by_cases h4 : k ∈ rest.map Prod.fst
      · rw [if_pos h4, if_pos (Or.inr h4)]
      · rw [if_neg h4, if_neg (fun h5 => h5.elim (fun h6 => h3 h6.symm) h4)]
        simp

theorem nodup_keys_set (m : VaultMap) (k : String) (v : VaultRecord)
    (h : (m.map Prod.fst).Nodup) : ((vaultMapSet m k v).map Prod.fst).Nodup := by
  rw [keys_set]
  by_cases h4 : k ∈ m.map Prod.fst
  · rwa [if_pos h4]
  · rw [if_neg h4]
    refine List.Nodup.append h (List.nodup_singleton k) ?_
    intro a ha hb
    rw [List.mem_singleton] at hb
    exact h4 (hb ▸ ha)

theorem keyCorrect_set (m : VaultMap) (v : VaultRecord)
    (h : ∀ e ∈ m, e.1 = identityKey e.2) :
    ∀ e ∈ vaultMapSet m (identityKey v) v, e.1 = identityKey e.2 := by
  induction m with
  | nil =>
    intro e he
    simp only [vaultMapSet, List.mem_singleton] at he
    simp [he]
  | cons p rest ih =>
    obtain ⟨k3, v3⟩ := p
    intro e he
    unfold vaultMapSet at he
    by_cases h3 : k3 = identityKey v
    · rw [if_pos h3] at he
      rcases List.mem_cons.mp he with h4 | h4
      · simp [h4]
      · exact h e (List.mem_cons_of_mem _ h4)
    · rw [if_neg h3] at he
      rcases List.mem_cons.mp he with h4 | h4
      · exact h4 ▸ h (k3, v3) (List.mem_cons_self _ _)
      · exact ih (fun e2 he2 => h e2 (List.mem_cons_of_mem _ he2)) e h4

theorem wf_set (m : VaultMap) (v : VaultRecord) (h : WFMap m) :
    WFMap (vaultMapSet m (identityKey v) v) :=
  ⟨nodup_keys_set m _ v h.1, keyCorrect_set m v h.2⟩

theorem wf_mergeStep2 (m : VaultMap) (v : VaultRecord) (h : WFMap m) :
    WFMap (mergeStep2 m v) := by
  unfold mergeStep2
  cases vaultMapGet m (identityKey v) with
  | none => exact wf_set m v h
  | some ex =>
    by_cases h2 : shouldOverride v ex = true
    · simpa [h2] using wf_set m v h
    · simpa [h2] using h

theorem wf_mergePhase1 (records : List VaultRecord) (m : VaultMap) (h : WFMap m) :
    WFMap (mergePhase1 m records) := by
  induction records generalizing m with
  | nil => exact h
  | cons v t ih => exact ih _ (wf_set m v h)

theorem wf_mergePhase2 (records : List VaultRecord) (m : VaultMap) (h : WFMap m) :
    WFMap (mergePhase2 m records) := by
  induction records generalizing m with
  | nil => exact h
  | cons v t ih => exact ih _ (wf_mergeStep2 m v h)

theorem wf_collect (defiLlamaVaults vaultsFyiVaults : List VaultRecord) :
    WFMap (collectFromAllSources defiLlamaVaults vaultsFyiVaults) :=
  wf_mergePhase2 _ _ (wf_mergePhase1 _ _ ⟨List.nodup_nil, by simp⟩)

theorem pairwise_of_wf (m : VaultMap) (h : WFMap m) :
    List.Pairwise (fun u v => identityKey u ≠ identityKey v) (m.map Prod.snd) := by
  obtain ⟨hnd, hkeys⟩ := h
  have h2 : List.Pairwise (fun a b => a.1 ≠ b.1) m := List.pairwise_map.mp hnd
  have h3 : List.Pairwise (fun a b => identityKey a.2 ≠ identityKey b.2) m := by
    refine h2.imp_of_mem ?_
    intro a b ha hb hne
    rw [← hkeys a ha, ← hkeys b hb]
    exact hne
  exact List.pairwise_map.mpr h3

theorem findByKey_eq_some (records : List VaultRecord) (k : String) (w : VaultRecord)
    (h : findByKey records k = some w) : w ∈ records ∧ identityKey w = k := by
  refine ⟨List.mem_of_find?_eq_some h, ?_⟩
  have h2 := List.find?_some h
  simpa using h2

theorem findByKey_eq_none (records : List VaultRecord) (k : String)
    (h : k ∉ records.map identityKey) : findByKey records k = none := by
  cases h2 : findByKey records k with
  | none => rfl
  | some w =>
    obtain ⟨hmem, hkey⟩ := findByKey_eq_some records k w h2
    exact absurd (hkey ▸ List.mem_map_of_mem identityKey hmem) h

theorem mergePhase1_get (records : List VaultRecord) (m : VaultMap) (k : String)
    (h : (records.map identityKey).Nodup) :
    vaultMapGet (mergePhase1 m records) k =
      match findByKey records k with
      | some v => some v
      | none => vaultMapGet m k := by
  induction records generalizing m with
  | nil => simp [mergePhase1, findByKey]
  | cons v t ih =>
    simp only [List.map_cons, List.nodup_cons] at h
    have hstep : mergePhase1 m (v :: t) = mergePhase1 (vaultMapSet m (identityKey v) v) t := rfl
    rw [hstep]
    by_cases hk : identityKey v = k
    · subst hk
      rw [ih _ h.2]
      have hnone : findByKey t (identityKey v) = none :=
        findByKey_eq_none t _ h.1
      have hfind : findByKey (v :: t) (identityKey v) = some v := by
        simp [findByKey, List.find?_cons]
      rw [hnone, hfind, vaultMapGet_set_self]
    · rw [ih _ h.2]
      have hfind : findByKey (v :: t) k = findByKey t k := by
        simp [findByKey, List.find?_cons, hk]
      rw [hfind]
      cases findByKey t k with
      | some w => rfl
      | none => exact vaultMapGet_set_ne m _ k v (fun h2 => hk h2.symm)

theorem mergeStep2_get_ne (m : VaultMap) (v : VaultRecord) (k : String)
    (h : identityKey v ≠ k) : vaultMapGet (mergeStep2 m v) k = vaultMapGet m k := by
  unfold mergeStep2
  cases vaultMapGet m (identityKey v) with
  | none => exact vaultMapGet_set_ne m _ k v (fun h2 => h h2.symm)
  | some ex =>
    by_cases h2 : shouldOverride v ex = true
    · simp only [h2, if_true]
      exact vaultMapGet_set_ne m _ k v (fun h3 => h h3.symm)
    · simp [h2]

theorem mergeStep2_get_self (m : VaultMap) (v : VaultRecord) :
    vaultMapGet (mergeStep2 m v) (identityKey v) =
      match vaultMapGet m (identityKey v) with
      | none => some v
      | some ex => some (if shouldOverride v ex then v else ex) := by
  unfold mergeStep2
  cases hget : vaultMapGet m (identityKey v) with
  | none => exact vaultMapGet_set_self m _ v
  | some ex =>
    by_cases h2 : shouldOverride v ex = true
    · simp only [h2, if_true]
      exact vaultMapGet_set_self m _ v
    · simp only [h2, if_false]
      simp [hget, h2]

theorem mergePhase2_get (records : List VaultRecord) (m : VaultMap) (k : String)
    (h : (records.map identityKey).Nodup) :
    vaultMapGet (mergePhase2 m records) k =
      match findByKey records k with
      | none => vaultMapGet m k
      | some v =>
          match vaultMapGet m k with
          | none => some v
          | some ex => some (if shouldOverride v ex then v else ex) := by
  induction records generalizing m with
  | nil => simp [mergePhase2, findByKey]
  | cons v t ih =>
    simp only [List.map_cons, List.nodup_cons] at h
    have hstep : mergePhase2 m (v :: t) = mergePhase2 (mergeStep2 m v) t := rfl
    rw [hstep]
    by_cases hk : identityKey v = k
    · subst hk
      rw [ih _ h.2]
      have hnone : findByKey t (identityKey v) = none := findByKey_eq_none t _ h.1
      have hfind : findByKey (v :: t) (identityKey v) = some v := by
        simp [findByKey, List.find?_cons]
      rw [hnone, hfind, mergeStep2_get_self]
    · rw [ih _ h.2]
      have hfind : findByKey (v :: t) k = findByKey t k := by
        simp [findByKey, List.find?_cons, hk]
      rw [hfind, mergeStep2_get_ne m v k hk]

/-! ## Claim theorems -/

/-- C2 counterexample: merging the two streams is NOT order-independent for
an identity present in both.  `mergeRecB` has the greater `tvl_usd` while
`mergeRecA` alone carries a risk score, so `merge([A],[B])` keeps B but
`merge([B],[A])` keeps A: the winner depends on arrival order. -/
theorem collectFromAllSources_order_dependent_cex :
    identityKey mergeRecA = identityKey mergeRecB ∧
    vaultMapGet (collectFromAllSources [mergeRecA] [mergeRecB]) (identityKey mergeRecA)
      = some mergeRecB ∧
    vaultMapGet (collectFromAllSources [mergeRecB] [mergeRecA]) (identityKey mergeRecA)
      = some mergeRecA ∧
    mergeRecA ≠ mergeRecB := by decide

/-- C2 (amended): the merge agrees on every key under stream exchange only
when the two streams hold internally unique, mutually disjoint identities;
for an identity present in both, the second stream's record wins exactly
when it has strictly greater `tvl_usd` or carries a (nonzero) `risk_score`
the stored record lacks — so the winner depends on which stream arrives
second. -/
theorem collectFromAllSources_merge_policy :
    (∀ (streamA streamB : List VaultRecord),
      (streamA.map identityKey).Nodup → (streamB.map identityKey).Nodup →
      (∀ a ∈ streamA, ∀ b ∈ streamB, identityKey a ≠ identityKey b) →
      ∀ k, vaultMapGet (collectFromAllSources streamA streamB) k =
           vaultMapGet (collectFromAllSources streamB streamA) k)
    ∧ (∀ a b : VaultRecord, identityKey b = identityKey a →
        vaultMapGet (collectFromAllSources [a] [b]) (identityKey a) =
          some (if shouldOverride b a then b else a)) := by
  constructor
  · intro streamA streamB hA hB hdisj k
    unfold collectFromAllSources
    rw [mergePhase2_get streamB _ k hB, mergePhase2_get streamA _ k hA]
    rw [mergePhase1_get streamA [] k hA, mergePhase1_get streamB [] k hB]
    cases hfa : findByKey streamA k with
    | some a0 =>
      have hfb : findByKey streamB k = none := by
        obtain ⟨hamem, hakey⟩ := findByKey_eq_some streamA k a0 hfa
        cases hfbx : findByKey streamB k with
        | none => rfl
        | some b0 =>
          obtain ⟨hbmem, hbkey⟩ := findByKey_eq_some streamB k b0 hfbx
          exact absurd (hakey.trans hbkey.symm) (hdisj a0 hamem b0 hbmem)
      rw [hfb]
      simp [vaultMapGet]
    | none =>
      cases hfb : findByKey streamB k with
      | some b0 => simp [vaultMapGet]
      | none => simp [vaultMapGet]
  · intro a b hkey
    show vaultMapGet (mergeStep2 (vaultMapSet [] (identityKey a) a) b) (identityKey a)
      = some (if shouldOverride b a then b else a)
    unfold mergeStep2
    rw [hkey]
    rw [show vaultMapSet [] (identityKey a) a = [(identityKey a, a)] from rfl]
    rw [show vaultMapGet [(identityKey a, a)] (identityKey a) = some a by
      simp [vaultMapGet]]
    by_cases hov : shouldOverride b a = true
    · simp only [hov, if_true]
      exact vaultMapGet_set_self _ _ b
    · simp only [hov]
      simp [vaultMapGet, hov]

/-- Witness for C2 (amended) at concrete disjoint and overlapping streams. -/
theorem collectFromAllSources_merge_policy_witness :
    vaultMapGet (collectFromAllSources [mergeRecA] [mergeRecC]) (identityKey mergeRecA)
      = vaultMapGet (collectFromAllSources [mergeRecC] [mergeRecA]) (identityKey mergeRecA) ∧
    vaultMapGet (collectFromAllSources [mergeRecA] [mergeRecB]) (identityKey mergeRecA)
      = some (if shouldOverride mergeRecB mergeRecA then mergeRecB else mergeRecA) :=
  ⟨collectFromAllSources_merge_policy.1 [mergeRecA] [mergeRecC]
      (by decide) (by decide) (by decide) (identityKey mergeRecA),
   collectFromAllSources_merge_policy.2 mergeRecA mergeRecB (by decide)⟩

/-- C3: after reconciliation at most one record per case-insensitive
identity `lowercase(vault_address)+lowercase(chain)` remains in the merged
output, and records differing only in address or chain casing have equal
identity keys, hence collapse. -/
theorem merged_identity_unique :
    (∀ defiLlamaVaults vaultsFyiVaults : List VaultRecord,
       List.Pairwise (fun u v => identityKey u ≠ identityKey v)
         (mergedVaults defiLlamaVaults vaultsFyiVaults))
    ∧ (∀ u v : VaultRecord, jsLower u.vault_address = jsLower v.vault_address →
        jsLower u.chain = jsLower v.chain → identityKey u = identityKey v) := by
  constructor
  · intro defiLlamaVaults vaultsFyiVaults
    exact pairwise_of_wf _ (wf_collect defiLlamaVaults vaultsFyiVaults)
  · intro u v h1 h2
    unfold identityKey
    rw [jsLower_append, jsLower_append, jsLower_append, jsLower_append, h1, h2]

/-- Witness for C3 on concrete streams containing casing variants. -/
theorem merged_identity_unique_witness :
    List.Pairwise (fun u v => identityKey u ≠ identityKey v)
      (mergedVaults [caseRecA, mergeRecA] [caseRecB, mergeRecB]) ∧
    jsLower caseRecA.vault_address = jsLower caseRecB.vault_address ∧
    identityKey caseRecA = identityKey caseRecB :=
  ⟨merged_identity_unique.1 [caseRecA, mergeRecA] [caseRecB, mergeRecB],
   by decide,
   merged_identity_unique.2 caseRecA caseRecB (by decide) (by decide)⟩

/-- C1: the best-vault sort comparator is the exact two-tier rule: when the
confidence gap (validation scores, absent treated as 0) exceeds 20 points
the higher-confidence candidate is ranked ahead regardless of yield,
otherwise the higher risk-adjusted yield (apy x riskScore/100) wins; and
the comparator is applied by the sort to the whole surviving candidate
list (the ranking is a permutation of the risk-filter survivors, not a
pre-filtered subset). -/
theorem getBestVault_two_tier_comparator :
    (∀ a b : RankedVault,
       (20 < |confidenceOf a - confidenceOf b| →
         (bestVaultCompare a b < 0 ↔ confidenceOf b < confidenceOf a)) ∧
       (|confidenceOf a - confidenceOf b| ≤ 20 →
         (bestVaultCompare a b < 0 ↔ b.risk_adjusted_apy < a.risk_adjusted_apy)))
    ∧ (∀ e : EnrichedVault,
        (addRiskAdjusted e).risk_adjusted_apy = e.record.apy * ((e.risk_score : ℚ) / 100))
    ∧ (∀ (vaults : List VaultRecord) (asset riskLevel : String) (chain : Option String),
        (getBestVaultRanking vaults asset riskLevel chain).Perm
          ((adapterSafeVaults vaults asset riskLevel chain).map addRiskAdjusted)) := by
  refine ⟨fun a b => ⟨fun h => ?_, fun h => ?_⟩, fun e => rfl,
    fun vaults asset riskLevel chain => ?_⟩
  · simp only [bestVaultCompare]
    rw [if_pos (show |confidenceOf a - confidenceOf b| > 20 from h)]
    exact sub_neg
  · simp only [bestVaultCompare]
    rw [if_neg (not_lt.mpr h)]
    exact sub_neg
  · exact List.mergeSort_perm _ _

/-- Witness for C1: confidence 90 vs 65 (gap 25 > 20) ranks the
higher-confidence candidate ahead although its risk-adjusted yield is
lower. -/
theorem getBestVault_two_tier_comparator_witness :
    20 < |confidenceOf confRecHi - confidenceOf confRecLo| ∧
    confRecHi.risk_adjusted_apy < confRecLo.risk_adjusted_apy ∧
    bestVaultCompare confRecHi confRecLo < 0 := by
  have hd : 20 < |confidenceOf confRecHi - confidenceOf confRecLo| := by
    norm_num [confidenceOf, confRecHi, confRecLo]
  refine ⟨hd, by norm_num [confRecHi, confRecLo], ?_⟩
  exact ((getBestVault_two_tier_comparator.1 confRecHi confRecLo).1 hd).mpr
    (by norm_num [confidenceOf, confRecHi, confRecLo])

/-- C4: risk categories follow the exact thresholds 85/70/55/40; in
particular a weighted score of exactly 85 is `low` and 84 is `medium-low`. -/
theorem getRiskCategory_thresholds : ∀ score : ℤ,
    (getRiskCategory score = "low" ↔ 85 ≤ score) ∧
    (getRiskCategory score = "medium-low" ↔ 70 ≤ score ∧ score < 85) ∧
    (getRiskCategory score = "medium" ↔ 55 ≤ score ∧ score < 70) ∧
    (getRiskCategory score = "medium-high" ↔ 40 ≤ score ∧ score < 55) ∧
    (getRiskCategory score = "high" ↔ score < 40) ∧
    getRiskCategory 85 = "low" ∧ getRiskCategory 84 = "medium-low" := by
  intro score
  refine ⟨?_, ?_, ?_, ?_, ?_, by decide, by decide⟩ <;>
    (unfold getRiskCategory
     split_ifs with h1 h2 h3 h4 <;>
       first
       | exact iff_of_true rfl (by omega)
       | exact iff_of_false (by decide) (by omega))

/-- C5: the validation score is the weighted sum (address 30, asset 25,
name 20, TVL 15, freshness bonus 10/5/0) and flipping any single boolean
check from fail to pass never decreases the total. -/
theorem calculateValidationScore_weighted_monotone : ∀ v : Validation,
    calculateValidationScore v =
        (if v.has_real_address then 30 else 0) + (if v.asset_match then 25 else 0) +
        (if v.name_similarity then 20 else 0) + (if v.tvl_reasonable then 15 else 0) +
        (if v.data_freshness = "fresh" then 10
         else if v.data_freshness = "recent" then 5 else 0) ∧
    calculateValidationScore v ≤ calculateValidationScore { v with has_real_address := true } ∧
    calculateValidationScore v ≤ calculateValidationScore { v with asset_match := true } ∧
    calculateValidationScore v ≤ calculateValidationScore { v with name_similarity := true } ∧
    calculateValidationScore v ≤ calculateValidationScore { v with tvl_reasonable := true } := by
  intro v
  obtain ⟨a, b, c, d, f⟩ := v
  simp only [calculateValidationScore]
  split_ifs <;> omega


/-- C6: a vault whose address is not contract-shaped performs zero RPC
reads and yields the protocol-category estimation, tagged
`is_estimation = true` with `confidence_score ≤ 0.6`, for every protocol
and every random draw. -/
theorem uuid_vault_no_rpc_estimation :
    ∀ (vaultAddress chain protocol : String) (rand : ℚ) (rpc : RpcEnv),
      isEthereumAddress vaultAddress = false →
      (getVaultDataWithCalculatedAPY vaultAddress chain protocol rand rpc).2 = 0 ∧
      (getVaultDataWithCalculatedAPY vaultAddress chain protocol rand rpc).1 =
        some (EnhancedOut.estimate
          (getProtocolEstimationForUUID vaultAddress chain protocol rand)) ∧
      (getProtocolEstimationForUUID vaultAddress chain protocol rand).is_estimation = true ∧
      (getProtocolEstimationForUUID vaultAddress chain protocol rand).confidence_score ≤ 6/10 := by
  intro vaultAddress chain protocol rand rpc h
  refine ⟨?_, ?_, ?_, ?_⟩
  · simp [getVaultDataWithCalculatedAPY, h]
  · simp [getVaultDataWithCalculatedAPY, h]
  · simp only [getProtocolEstimationForUUID]
    split_ifs <;> rfl
  · simp only [getProtocolEstimationForUUID]
    split_ifs <;> norm_num

/-- Witness for C6 at the opaque identifier `uuid-1234`. -/
theorem uuid_vault_no_rpc_estimation_witness :
    isEthereumAddress ("uuid-1234") = false ∧
    (getVaultDataWithCalculatedAPY ("uuid-1234") ("ethereum") ("Aave-v3") 0
        { basicData := none, apyData := none }).2 = 0 ∧
    (getProtocolEstimationForUUID ("uuid-1234") ("ethereum") ("Aave-v3") 0).is_estimation
      = true ∧
    (getProtocolEstimationForUUID ("uuid-1234") ("ethereum") ("Aave-v3") 0).confidence_score
      ≤ 6/10 := by
  have h := uuid_vault_no_rpc_estimation ("uuid-1234") ("ethereum") ("Aave-v3") 0
    { basicData := none, apyData := none } (by decide)
  exact ⟨by decide, h.1, h.2.2.1, h.2.2.2⟩

/-- C7: an empty post-filter candidate set produces the structured 404
`No vaults found matching criteria` body on the API route, and the
Chainlink endpoint converts the thrown no-matching-vault error into a
structured `errored` response: both are total outcomes, never an
unhandled crash. -/
theorem empty_filter_structured_response :
    ∀ (vaults : List VaultRecord) (asset risk : String) (chain : Option String) (minTvl : ℚ),
      (serverSafeVaults vaults asset risk chain minTvl = [] →
        bestVaultRoute vaults asset risk chain minTvl =
          ServerResponse.notFound ("No vaults found matching criteria")) ∧
      (adapterSafeVaults vaults asset risk chain = [] →
        adapterBestVaultEndpoint vaults asset risk chain =
          ChainlinkResponse.errored (noVaultsMsg asset risk)) := by
  intro vaults asset risk chain minTvl
  constructor
  · intro h
    unfold bestVaultRoute
    rw [h]
    rfl
  · intro h
    unfold adapterBestVaultEndpoint adapterGetBestVault
    rw [h]
    rfl

/-- Witness for C7 on an empty collector output. -/
theorem empty_filter_structured_response_witness :
    serverSafeVaults [] ("USDC") ("medium") none 0 = [] ∧
    bestVaultRoute [] ("USDC") ("medium") none 0 =
      ServerResponse.notFound ("No vaults found matching criteria") ∧
    adapterSafeVaults [] ("USDC") ("medium") none = [] ∧
    adapterBestVaultEndpoint [] ("USDC") ("medium") none =
      ChainlinkResponse.errored (noVaultsMsg ("USDC") ("medium")) := by
  have h1 : serverSafeVaults [] ("USDC") ("medium") none 0 = [] := by
    simp [serverSafeVaults, filterByRiskTolerance, chainFilter, List.mergeSort_nil]
  have h2 : adapterSafeVaults [] ("USDC") ("medium") none = [] := by
    simp [adapterSafeVaults, filterByRiskTolerance, chainFilter, List.mergeSort_nil]
  exact ⟨h1, (empty_filter_structured_response [] _ _ none 0).1 h1, h2,
    (empty_filter_structured_response [] _ _ none 0).2 h2⟩

/-- C8 counterexample: a result limit of 60 lies outside `[1,50]`, yet the
top-vaults route still performs the collector I/O and answers success —
no invalid-criteria rejection exists. -/
theorem topVaults_limit_not_rejected_cex :
    ¬(1 ≤ (60 : ℕ) ∧ (60 : ℕ) ≤ 50) ∧
    (topVaultsRoute [] ("USDC") ("medium") none 60 ("risk_adjusted_apy")).collected = true ∧
    (topVaultsRoute [] ("USDC") ("medium") none 60 ("risk_adjusted_apy")).response =
      TopVaultsResponse.success [] := by
  refine ⟨by decide, rfl, ?_⟩
  simp [topVaultsRoute, filterByRiskTolerance, chainFilter, List.mergeSort_nil]

/-- C8 (amended): the top-vaults route never rejects any limit; the
collector always runs, and the response is a success whose length is
capped at `min(limit, 100)` after collection and sorting. -/
theorem topVaults_limit_capped :
    ∀ (collectorVaults : List VaultRecord) (asset risk : String) (chain : Option String)
      (limit : ℕ) (sortBy : String),
      (topVaultsRoute collectorVaults asset risk chain limit sortBy).collected = true ∧
      (∀ msg, (topVaultsRoute collectorVaults asset risk chain limit sortBy).response ≠
        TopVaultsResponse.invalidCriteria msg) ∧
      (∀ results, (topVaultsRoute collectorVaults asset risk chain limit sortBy).response =
          TopVaultsResponse.success results → results.length ≤ min limit 100) := by
  intro collectorVaults asset risk chain limit sortBy
  refine ⟨rfl, fun msg => by simp [topVaultsRoute], fun results h => ?_⟩
  simp only [topVaultsRoute, TopVaultsResponse.success.injEq] at h
  rw [← h, List.length_take]
  exact min_le_left _ _

/-- Witness for C8 (amended) at limit 60. -/
theorem topVaults_limit_capped_witness :
    (topVaultsRoute [] ("USDC") ("medium") none 60 ("apy")).collected = true ∧
    (topVaultsRoute [] ("USDC") ("medium") none 60 ("apy")).response ≠
      TopVaultsResponse.invalidCriteria ("limit out of range") ∧
    ([] : List RankedVault).length ≤ min 60 100 := by
  refine ⟨(topVaults_limit_capped [] ("USDC") ("medium") none 60 ("apy")).1,
    (topVaults_limit_capped [] ("USDC") ("medium") none 60 ("apy")).2.1 _,
    (topVaults_limit_capped [] ("USDC") ("medium") none 60 ("apy")).2.2 [] ?_⟩
  simp [topVaultsRoute, filterByRiskTolerance, chainFilter, List.mergeSort_nil]

/-- C9 (code bug evidence): in the interleaving semantics of
`getOrSetWithDeduplication`, two callers that both pass the in-flight
check before either registers its promise (the registration happens only
after an awaited cache read) each invoke the upstream function: two
upstream calls on a cold cache.  Staggered callers do join the in-flight
promise, and settlement removes the in-flight entry on success and on
failure, as the claim states. -/
theorem dedup_race_two_upstream_calls :
    (dedupRun (coldStart 2) [DedupAction.run 0, DedupAction.run 1,
        DedupAction.run 0, DedupAction.run 1]).upstreamCalls = 2 ∧
    (dedupRun (coldStart 2) [DedupAction.run 0, DedupAction.run 0,
        DedupAction.run 1]).upstreamCalls = 1 ∧
    (dedupRun (coldStart 2) [DedupAction.run 0, DedupAction.run 0,
        DedupAction.run 1]).threads.get? 1 = some DedupPhase.joined ∧
    (dedupRun (coldStart 2) [DedupAction.run 0, DedupAction.run 0,
        DedupAction.settle true]).inFlightRegistered = false ∧
    (dedupRun (coldStart 2) [DedupAction.run 0, DedupAction.run 0,
        DedupAction.settle false]).inFlightRegistered = false := by
  decide

/-- C10 counterexample: `riskCexVault` has computed risk score 38 ≥ 0, so
under the claimed `high → 0` minimum it must be returned, but
`filterByRiskTolerance` at tolerance `high` filters it out: the JS `|| 55`
default coerces the table's 0 to 55. -/
theorem filterByRiskTolerance_high_cex :
    (enrichWithRisk riskCexVault).risk_score = 38 ∧
    (0 : ℤ) ≤ (enrichWithRisk riskCexVault).risk_score ∧
    filterByRiskTolerance [riskCexVault] ("high") = [] := by
  have h1 : getProtocolScore riskCexVault.protocol = 50 := by decide
  have h2 : getTVLScore riskCexVault.tvl_usd = 20 := by decide
  have h3 : getAPYScore riskCexVault.apy = 20 := by decide
  have h4 : getChainScore riskCexVault.chain = 50 := by decide
  have h5 : getSourceScore riskCexVault.data_source = 70 := by decide
  have he : (enrichWithRisk riskCexVault).risk_score = 38 := by
    simp only [enrichWithRisk, calculateRiskScore, h1, h2, h3, h4, h5, jsRound]
    norm_num
  have hm : minScoreFor ("high") = 55 := by decide
  refine ⟨he, by rw [he]; norm_num, ?_⟩
  simp only [filterByRiskTolerance, List.map_cons, List.map_nil]
  rw [List.filter_cons_of_neg, List.filter_nil, List.mergeSort_nil]
  simp [he, hm]

/-- C10 (amended): `filterByRiskTolerance` returns exactly the enriched
vaults whose computed risk score reaches the tolerance minimum (low 85,
medium-low 70, medium 55, medium-high 40, high 55 — the `|| 55` fallback
turns the table's 0 for `high` into 55), sorted descending by risk score. -/
theorem filterByRiskTolerance_spec :
    ∀ (vaults : List VaultRecord) (maxRiskLevel : String),
      (filterByRiskTolerance vaults maxRiskLevel).Perm
        ((vaults.map enrichWithRisk).filter
          (fun v => decide (v.risk_score ≥ minScoreFor maxRiskLevel))) ∧
      List.Pairwise (fun a b => b.risk_score ≤ a.risk_score)
        (filterByRiskTolerance vaults maxRiskLevel) ∧
      minScoreFor ("low") = 85 ∧ minScoreFor ("medium-low") = 70 ∧
      minScoreFor ("medium") = 55 ∧ minScoreFor ("medium-high") = 40 ∧
      minScoreFor ("high") = 55 := by
  intro vaults maxRiskLevel
  refine ⟨List.mergeSort_perm _ _, ?_, by decide, by decide, by decide, by decide, by decide⟩
  have htrans : ∀ a b c : EnrichedVault,
      (fun x y : EnrichedVault => decide (y.risk_score ≤ x.risk_score)) a b = true →
      (fun x y : EnrichedVault => decide (y.risk_score ≤ x.risk_score)) b c = true →
      (fun x y : EnrichedVault => decide (y.risk_score ≤ x.risk_score)) a c = true := by
    intro a b c hab hbc
    simp only [decide_eq_true_eq] at *
    omega
  have htotal : ∀ a b : EnrichedVault,
      ((fun x y : EnrichedVault => decide (y.risk_score ≤ x.risk_score)) a b ||
       (fun x y : EnrichedVault => decide (y.risk_score ≤ x.risk_score)) b a) = true := by
    intro a b
    simp only [Bool.or_eq_true, decide_eq_true_eq]
    omega
  have hs := List.sorted_mergeSort htrans htotal
    ((vaults.map enrichWithRisk).filter
      (fun v => decide (v.risk_score ≥ minScoreFor maxRiskLevel)))
  exact hs.imp (fun h => by simpa using h)

end VaultOracle
